import Mathlib

/-!
# Verification of the transaction intelligence and rule-learning engine

Shallow embedding, in Lean 4, of the classifier, transfer detector,
anomaly detector, recurring-pattern detector, rule learner, rule applier
and rule store of the repository (source files `categorization.py`,
`analytics.py`, `mapping_rules.py`, `mapping_memory.py`), together with
theorems settling the frozen claims about them.

Modelling conventions:
* Python floats are modelled as exact rationals (`ℚ`); `round(x, k)` is
  modelled by `roundQ`, rounding half-up on the exact rational, and
  `int(round(x))` by `intRoundHalfEven` (Python's integer rounding is
  half-to-even, and every tie produced by the code here is a multiple of
  `1/2`, which binary floats represent exactly).
* Strings are Lean `String`s; `str.upper()`/`str.strip()` and the regex
  character classes are modelled on ASCII (all concrete inputs used in
  the proofs are ASCII).
* Regex scanning (`re.search`, `re.findall` emptiness) is modelled by
  executable backtracking matchers over `List Char`, with `\b` modelled
  exactly (a position whose two neighbours differ in word-character
  status) and lookarounds `(?<![A-Z0-9])`/`(?![A-Z0-9])` modelled as
  written.
* Pandas data frames are modelled as lists of records (one structure per
  module), and per-row `apply` as `List.map`/`List.filter`;
  `sort_values` is modelled by `List.insertionSort` on the same keys
  (the claims are about sortedness and membership, which are
  independent of how ties are ordered).
-/

/-! ## String helpers (Python `upper`, `strip`, substring containment) -/

/-- ASCII model of the Python whitespace class stripped by `str.strip()`
and matched by the regex class `\s`. -/
def isPyWs (c : Char) : Bool :=
  c = ' ' || c = '\t' || c = '\n' || c = '\r' || c = '\x0b' || c = '\x0c'

/-- `str.strip()` on a character list. -/
def stripChars (l : List Char) : List Char :=
  ((l.dropWhile isPyWs).reverse.dropWhile isPyWs).reverse

/-- `str.strip()`. -/
def stripS (s : String) : String := ⟨stripChars s.data⟩

/-- `str.upper()` (ASCII model: `Char.toUpper` maps `a`-`z` only). -/
def upperS (s : String) : String := ⟨s.data.map Char.toUpper⟩

/-- `sep.join(parts)` (kernel-reducible replacement for the core
`String.intercalate`). -/
def intercalateS (sep : String) : List String → String
  | [] => ""
  | [x] => x
  | x :: xs => x ++ sep ++ intercalateS sep xs

/-- Concatenate a list of strings (kernel-reducible `String.join`). -/
def joinS (l : List String) : String := l.foldl (fun a b => a ++ b) ""

/-- Does `hay` start with `needle`? -/
def startsWithL : List Char → List Char → Bool
  | [], _ => true
  | _ :: _, [] => false
  | a :: as, b :: bs => a = b && startsWithL as bs

/-- Python substring containment `needle in hay` on character lists. -/
def containsL (needle : List Char) : List Char → Bool
  | [] => startsWithL needle []
  | c :: t => startsWithL needle (c :: t) || containsL needle t

/-- Python substring containment `needle in hay` on strings. -/
def containsSubS (needle hay : String) : Bool := containsL needle.data hay.data

/-! ## Regex matching primitives -/

/-- Regex word character (`\w`), ASCII model. -/
def isWordChar (c : Char) : Bool := c.isAlphanum || c = '_'

/-- Word-character status of an optional neighbouring character; out of
range counts as a non-word character, as in `re`. -/
def isOptWord : Option Char → Bool
  | none => false
  | some c => isWordChar c

/-- The regex class `[A-Z0-9]`. -/
def isAZ09 (c : Char) : Bool := ('A' ≤ c && c ≤ 'Z') || ('0' ≤ c && c ≤ '9')

/-- `[A-Z0-9]` status of an optional neighbouring character. -/
def isOptAZ09 : Option Char → Bool
  | none => false
  | some c => isAZ09 c

/-- Does `\b kw \b` match at the current position, where `prev` is the
character just before the position (`none` at the start of the text)?
A `\b` holds where the two neighbouring positions differ in
word-character status.  `kw` is nonempty at every call site (the code
never builds the pattern from an empty keyword). -/
def bMatchAt (kw : List Char) (prev : Option Char) (hay : List Char) : Bool :=
  match kw with
  | [] => false
  | k0 :: _ =>
    startsWithL kw hay &&
    (isOptWord prev != isWordChar k0) &&
    (match kw.getLast? with
     | none => false
     | some kl => isWordChar kl != isOptWord ((hay.drop kw.length).head?))

/-- Scan of `re.search(rf"\b{kw}\b", hay)` carrying the previous character. -/
def searchWordBAux (kw : List Char) (prev : Option Char) : List Char → Bool
  | [] => bMatchAt kw prev []
  | c :: t => bMatchAt kw prev (c :: t) || searchWordBAux kw (some c) t

/-- `re.search(rf"\b{re.escape(kw)}\b", hay)` as a boolean. -/
def searchWordBS (kw hay : String) : Bool := searchWordBAux kw.data none hay.data

/-- Does `(?<![A-Z0-9]) kw (?![A-Z0-9])` match at the current position? -/
def tokMatchAt (kw : List Char) (prev : Option Char) (hay : List Char) : Bool :=
  startsWithL kw hay && !isOptAZ09 prev && !isOptAZ09 ((hay.drop kw.length).head?)

/-- Scan for the lookaround-delimited pattern, carrying the previous character. -/
def searchTokAux (kw : List Char) (prev : Option Char) : List Char → Bool
  | [] => tokMatchAt kw prev []
  | c :: t => tokMatchAt kw prev (c :: t) || searchTokAux kw (some c) t

/-- `re.search(rf"(?<![A-Z0-9]){re.escape(kw)}(?![A-Z0-9])", hay)` as a boolean. -/
def searchTokS (kw hay : String) : Bool := searchTokAux kw.data none hay.data

/-! ## Rounding helpers -/

/-- Python `round(x, k)` with `scale = 10^k`, modelled as rounding the
exact rational half-up.  (CPython rounds the nearest binary float, so at
exact decimal ties the result depends on the binary representation; the
concrete tie exercised in this development, `round(0.525, 2) = 0.53`,
agrees with half-up.) -/
def roundQ (scale : ℚ) (x : ℚ) : ℚ := (round (x * scale) : ℤ) / scale

/-- Python `int(round(x))`: round half-to-even (exact for the `k/2` ties
produced by medians of integer day intervals). -/
def intRoundHalfEven (x : ℚ) : ℤ :=
  let f := ⌊x⌋
  let r := x - f
  if r < 1/2 then f
  else if 1/2 < r then f + 1
  else if f % 2 = 0 then f else f + 1

/-! ## `categorization.py`: the rule-based classifier

Transcribed from `src/categorization.py`.  The classifier is the inner
per-row function `assign` of `assign_categories_with_confidence`, split
into named stages (fixed rules, transfer scan, income scan, keyword-table
scan, flow fallbacks) exactly in source order. -/

def TRANSFER_KEYWORDS : List String :=
  ["TRANSFER", "UEBERTRAG", "ÜBERTRAG", "EIGENKONTO", "KONTOUEBERTRAG",
   "ACCOUNT TRANSFER", "IBAN", "REVOLUT", "WISE", "BARBEZUG", "CASH WITHDRAWAL"]

def INCOME_KEYWORDS : List String :=
  ["SALARY", "PAYROLL", "GEHALT", "LOHN", "BONUS", "DIVIDEND", "INTEREST",
   "ZINS", "PENSION", "AHV", "RENT", "RUECKERSTATTUNG", "REFUND"]

def STRICT_WORD_KEYWORDS : List String := ["CAR", "ART"]

/-- `_score_keyword_match`: base 0.75, +0.15 if the keyword is a substring
of the merchant field, +0.06 if it occurs `\b`-delimited in the
description, capped at 0.98. -/
def score_keyword_match (description merchant keyword : String) : ℚ :=
  let s0 : ℚ := 3/4
  let s1 : ℚ := if containsSubS keyword merchant then s0 + 3/20 else s0
  let s2 : ℚ := if searchWordBS keyword description then s1 + 3/50 else s1
  min s2 (49/50)

/-- `_keyword_matches`: strict-word keywords and short plain keywords
(≤ 4 alphanumeric characters, no space/`&`/`*`/`/`) must match delimited
by the `[A-Z0-9]` lookarounds; all others match as bare substrings. -/
def keyword_matches (description keyword : String) : Bool :=
  let kw := stripS (upperS keyword)
  if kw = "" then false
  else if STRICT_WORD_KEYWORDS.contains kw then searchTokS kw description
  else
    let alnum := kw.data.filter Char.isAlphanum
    if alnum.length ≤ 4 && !kw.data.contains ' ' && !kw.data.contains '&'
        && !kw.data.contains '*' && !kw.data.contains '/' then
      searchTokS kw description
    else containsSubS kw description

/-- One transaction row as consumed by the classifier: the four free-text
description fields and the debit/credit columns (`_to_float` of a missing
or malformed cell is 0, so the fields are plain rationals). -/
structure TxRow where
  Beschreibung1 : String := ""
  Beschreibung2 : String := ""
  Beschreibung3 : String := ""
  Fussnoten : String := ""
  Debit : ℚ := 0
  DebitCHF : ℚ := 0
  Credit : ℚ := 0
  CreditCHF : ℚ := 0
deriving DecidableEq

/-- The concatenated uppercased match text (`" ".join(desc_fields).upper()`). -/
def description_of (r : TxRow) : String :=
  upperS (intercalateS " "
    [r.Beschreibung1, r.Beschreibung2, r.Beschreibung3, r.Fussnoten])

/-- The uppercased primary merchant field (`Beschreibung1`). -/
def merchant_of (r : TxRow) : String := upperS r.Beschreibung1

def debit_of (r : TxRow) : ℚ := max r.Debit r.DebitCHF

def credit_of (r : TxRow) : ℚ := max r.Credit r.CreditCHF

def outgoing_of (r : TxRow) : Bool :=
  decide (0 < debit_of r) && decide (credit_of r = 0)

def incoming_of (r : TxRow) : Bool :=
  decide (0 < credit_of r) && decide (debit_of r = 0)

/-- The high-priority fixed rules, in source order: cash withdrawal
(outgoing only), interest settlement, foreign fees. -/
def fixed_rule_hit (r : TxRow) : Option (String × ℚ × String) :=
  let d := description_of r
  if outgoing_of r &&
      (containsSubS "BARGELDBEZUG" d || containsSubS "BANCOMAT" d || containsSubS "ATM" d) then
    some ("Transfers", 24/25, "Transfer:CashWithdrawal")
  else if containsSubS "ZINSABSCHLUSS" d then
    some ("Utilities & Bills", 9/10, "Bank:InterestSettlement")
  else if containsSubS "FREMDKOSTEN" d then
    some ("Utilities & Bills", 9/10, "Bank:ForeignFees")
  else none

/-- First transfer keyword accepted by `_keyword_matches` on the description. -/
def transfer_hit (description : String) : Option String :=
  (TRANSFER_KEYWORDS.find? (fun k =>
    let kw := upperS k
    kw ≠ "" && keyword_matches description kw)).map upperS

/-- First income keyword occurring as a bare substring of the description. -/
def income_hit (description : String) : Option String :=
  (INCOME_KEYWORDS.find? (fun k =>
    let kw := upperS k
    kw ≠ "" && containsSubS kw description)).map upperS

/-- Scan of the caller-supplied keyword table in table order, skipping the
transfer/income categories against the flow direction. -/
def table_scan (description merchant : String) (outgoing incoming : Bool) :
    List (String × List String) → Option (String × ℚ × String)
  | [] => none
  | (category, keywords) :: rest =>
    if outgoing && (category = "Income & Transfers" || category = "Transfers") then
      table_scan description merchant outgoing incoming rest
    else if incoming && category = "Transfers" then
      table_scan description merchant outgoing incoming rest
    else
      match keywords.find? (fun k => keyword_matches description (upperS k)) with
      | some k =>
        some (category, score_keyword_match description merchant (upperS k), upperS k)
      | none => table_scan description merchant outgoing incoming rest

/-- The per-row classifier `assign` inside
`assign_categories_with_confidence`: returns
(category, confidence, rule id). -/
def assign (r : TxRow) (keyword_map : List (String × List String)) : String × ℚ × String :=
  match fixed_rule_hit r with
  | some res => res
  | none =>
    match transfer_hit (description_of r) with
    | some kw => ("Transfers", 93/100, "Transfer:" ++ kw)
    | none =>
      match (if incoming_of r then income_hit (description_of r) else none) with
      | some kw => ("Income & Transfers", 19/20, "Income:" ++ kw)
      | none =>
        match table_scan (description_of r) (merchant_of r)
            (outgoing_of r) (incoming_of r) keyword_map with
        | some res => res
        | none =>
          if incoming_of r then ("Income & Transfers", 29/50, "Flow:Credit")
          else if outgoing_of r then ("Other", 11/50, "Flow:Debit")
          else ("Other", 1/5, "")

/-! ## `analytics.py`: transfer detection

Transcribed from `enrich_transaction_intelligence` / `detect_transfer` in
`src/analytics.py`.  The two regexes

* `_IBAN_PATTERN  = \b[A-Z]{2}\d{2}(?:\s?[A-Z0-9]{4}){3,8}\b`
* `_ACCOUNT_PATTERN = \b\d{4}\s\d{8}\.\d{2}\b`

are modelled as executable backtracking matchers.  The code only uses
the *first* match of `findall` as the extracted counterparty string and
then branches on its truthiness; the embedding keeps the presence of a
match (`counterparty_found`), which is the only part the scoring logic
reads, and abstracts the extracted text itself. -/

def ANALYTICS_TRANSFER_KEYWORDS : List String :=
  ["TRANSFER", "UEBERTRAG", "ÜBERTRAG", "EIGENKONTO", "KONTOUEBERTRAG",
   "ACCOUNT TRANSFER", "REVOLUT", "IBAN"]

def isDigit09 (c : Char) : Bool := '0' ≤ c && c ≤ '9'

def isUpperAZ (c : Char) : Bool := 'A' ≤ c && c ≤ 'Z'

/-- Consume exactly `n` characters satisfying `p`. -/
def takeClass (p : Char → Bool) : Nat → List Char → Option (List Char)
  | 0, s => some s
  | n + 1, [] => (fun _ => none) n
  | n + 1, c :: t => if p c then takeClass p n t else none

/-- End-of-match `\b` after a word character: the next character must be
absent or a non-word character. -/
def endWordBoundary : List Char → Bool
  | [] => true
  | c :: _ => !isWordChar c

/-- Try to consume one IBAN group `\s?[A-Z0-9]{4}` and continue. -/
def ibanChunk (s : List Char) (cont : List Char → Bool) : Bool :=
  (match takeClass isAZ09 4 s with
   | some rest => cont rest
   | none => false) ||
  (match s with
   | c :: t =>
     isPyWs c &&
       (match takeClass isAZ09 4 t with
        | some rest => cont rest
        | none => false)
   | [] => false)

/-- Can the remainder of an IBAN match complete, given that `matched`
groups have been consumed already?  Either at least 3 groups are done and
the trailing `\b` holds, or (while fewer than 8 are done) one more group
can be consumed.  `fuel` bounds the remaining groups (start: 8). -/
def ibanChunks : Nat → Nat → List Char → Bool
  | fuel, matched, s =>
    (decide (3 ≤ matched) && endWordBoundary s) ||
    (match fuel with
     | 0 => false
     | fuel' + 1 => decide (matched < 8) && ibanChunk s (ibanChunks fuel' (matched + 1)))

/-- Does `_IBAN_PATTERN` match starting at the current position
(`prev` = preceding character)? -/
def ibanMatchAt (prev : Option Char) (s : List Char) : Bool :=
  !isOptWord prev &&
    (match takeClass isUpperAZ 2 s with
     | some s1 =>
       (match takeClass isDigit09 2 s1 with
        | some s2 => ibanChunks 8 0 s2
        | none => false)
     | none => false)

/-- Scan the text for an `_IBAN_PATTERN` match. -/
def ibanSearchAux (prev : Option Char) : List Char → Bool
  | [] => ibanMatchAt prev []
  | c :: t => ibanMatchAt prev (c :: t) || ibanSearchAux (some c) t

def ibanSearch (s : String) : Bool := ibanSearchAux none s.data

/-- Does `_ACCOUNT_PATTERN` (`\b\d{4}\s\d{8}\.\d{2}\b`) match starting at
the current position? -/
def acctMatchAt (prev : Option Char) (s : List Char) : Bool :=
  !isOptWord prev &&
    (match takeClass isDigit09 4 s with
     | some s1 =>
       (match s1 with
        | c :: t =>
          isPyWs c &&
            (match takeClass isDigit09 8 t with
             | some s2 =>
               (match s2 with
                | '.' :: t2 =>
                  (match takeClass isDigit09 2 t2 with
                   | some s3 => endWordBoundary s3
                   | none => false)
                | _ => false)
             | none => false)
        | [] => false)
     | none => false)

/-- Scan the text for an `_ACCOUNT_PATTERN` match. -/
def acctSearchAux (prev : Option Char) : List Char → Bool
  | [] => acctMatchAt prev []
  | c :: t => acctMatchAt prev (c :: t) || acctSearchAux (some c) t

def acctSearch (s : String) : Bool := acctSearchAux none s.data

/-- One transaction row as consumed by the transfer detector. -/
structure TransferRow where
  Beschreibung1 : String := ""
  Beschreibung2 : String := ""
  Beschreibung3 : String := ""
  Fussnoten : String := ""
  DebitCHF : ℚ := 0
  CreditCHF : ℚ := 0
deriving DecidableEq

/-- The uppercased concatenated description scanned by `detect_transfer`. -/
def transfer_text (r : TransferRow) : String :=
  upperS (intercalateS " "
    [r.Beschreibung1, r.Beschreibung2, r.Beschreibung3, r.Fussnoten])

/-- `matches = _IBAN_PATTERN.findall(upper) + _ACCOUNT_PATTERN.findall(upper)`,
reduced to the truthiness of `matches[0]` (every match of either pattern
is a nonempty string, so a counterparty was found iff either pattern
matches somewhere). -/
def counterparty_found (text : String) : Bool := ibanSearch text || acctSearch text

/-- Number of fixed transfer keywords occurring (as bare substrings) in
the text: `sum(1 for kw in _TRANSFER_KEYWORDS if kw in upper)`. -/
def transfer_keyword_hits (text : String) : Nat :=
  (ANALYTICS_TRANSFER_KEYWORDS.filter (fun kw => containsSubS kw text)).length

/-- The confidence accumulator of `detect_transfer`, before capping and
rounding. -/
def transfer_confidence_raw (text : String) : ℚ :=
  let hits := transfer_keyword_hits text
  let c0 : ℚ := 15/100
  let c1 : ℚ := if hits ≠ 0 then c0 + min (45/100 : ℚ) ((1/10 : ℚ) * hits) else c0
  if counterparty_found text then c1 + 35/100 else c1

/-- `detect_transfer`: returns
(counterparty found, isTransfer, rounded confidence, direction). -/
def detect_transfer (r : TransferRow) : Bool × Bool × ℚ × String :=
  let text := transfer_text r
  let confidence := transfer_confidence_raw text
  let is_transfer := decide (1/2 ≤ confidence)
  let direction :=
    if is_transfer then
      if 0 < r.DebitCHF then "Out"
      else if 0 < r.CreditCHF then "In"
      else "Unknown"
    else "N/A"
  (counterparty_found text, is_transfer, roundQ 100 (min confidence (99/100)), direction)

/-! ## `mapping_rules.py`: rule learning and application

Transcribed from `src/mapping_rules.py`.  Python `dict`s and `Counter`s
are modelled as association lists with dict update semantics (an existing
key keeps its position and gets the new value; a new key is appended), so
iteration order and `Counter.most_common` tie-breaking (first inserted
wins) are preserved. -/

/-- The stopword set `_STOPWORDS` (the source lists `"TRANSAKTIONS"`
twice; set membership is unaffected). -/
def MAPPING_STOPWORDS : List String :=
  ["THE", "AND", "PAYMENT", "KARTE", "CARD", "CH", "CHF", "USD", "EUR",
   "GMBH", "AG", "LTD", "SA", "CO", "COMPANY", "PENDING", "TRANSAKTIONS",
   "TRANSACTION"]

/-- `dict[k] = v`: update in place if the key exists, else append. -/
def dictInsert (k v : String) : List (String × String) → List (String × String)
  | [] => [(k, v)]
  | (k', v') :: t => if k' = k then (k, v) :: t else (k', v') :: dictInsert k v t

/-- `dict.get(k)`. -/
def dictGet (m : List (String × String)) (k : String) : Option String :=
  (m.find? (fun kv => kv.1 = k)).map (fun kv => kv.2)

/-- `Counter[k] += 1`: bump in place if present, else append with count 1. -/
def counterBump (k : String) : List (String × ℕ) → List (String × ℕ)
  | [] => [(k, 1)]
  | (k', n) :: t => if k' = k then (k', n + 1) :: t else (k', n) :: counterBump k t

/-- `Counter.most_common(1)[0]`: the entry with the largest count,
earliest-inserted entry winning ties (`("", 0)` on an empty counter,
which no call site reaches). -/
def mostCommon1 : List (String × ℕ) → String × ℕ
  | [] => ("", 0)
  | h :: t => t.foldl (fun b e => if b.2 < e.2 then e else b) h

/-- `normalize_rule_map`: upper-case and strip keys, strip values, drop
entries with an empty key or value; last write wins. -/
def normalize_rule_map (rule_map : List (String × String)) : List (String × String) :=
  rule_map.foldl (fun acc kv =>
    let key_text := stripS (upperS kv.1)
    let value_text := stripS kv.2
    if key_text ≠ "" && value_text ≠ "" then dictInsert key_text value_text acc else acc) []

/-- Split a character list into its maximal runs of `[A-Z0-9]` characters;
`_TOKEN_PATTERN.findall` returns exactly the runs of length ≥ 3. -/
def alnumRuns (cur : List Char) : List Char → List (List Char)
  | [] => if cur = [] then [] else [cur.reverse]
  | c :: t =>
    if isAZ09 c then alnumRuns (c :: cur) t
    else if cur = [] then alnumRuns [] t
    else cur.reverse :: alnumRuns [] t

/-- One row as consumed by the mapping-rule subsystem. -/
structure MapRow where
  MerchantNormalized : String := ""
  Merchant : String := ""
  Beschreibung1 : String := ""
  Beschreibung2 : String := ""
  Beschreibung3 : String := ""
  Fussnoten : String := ""
  Category : String := ""
  CategoryConfidence : ℚ := 0
  CategoryRule : String := ""
deriving DecidableEq

/-- `transaction_text`: join the non-blank text fields and upper-case. -/
def transaction_text (r : MapRow) : String :=
  upperS (intercalateS " "
    (([r.MerchantNormalized, r.Merchant, r.Beschreibung1, r.Beschreibung2,
       r.Beschreibung3, r.Fussnoten]).filter (fun s => stripS s ≠ "")))

/-- `tokenize_mapping_text`: uppercase `[A-Z0-9]{3,}` tokens, excluding
stopwords and purely numeric tokens, deduplicated and sorted
(`sorted(set(tokens))`). -/
def tokenize_mapping_text (text : String) : List String :=
  let runs := (alnumRuns [] (upperS text).data).filter (fun r => 3 ≤ r.length)
  let toks := (runs.map (fun r => (⟨r⟩ : String))).filter (fun t =>
    !MAPPING_STOPWORDS.contains t && !t.data.all isDigit09)
  List.insertionSort (· ≤ ·) toks.dedup

/-- `suggest_category_from_rules`: returns (category, top token, confidence). -/
def suggest_category_from_rules (text : String) (rule_map : List (String × String)) :
    String × String × ℚ :=
  let rules := normalize_rule_map rule_map
  if rules = [] then ("", "", 0)
  else
    let tokens := tokenize_mapping_text text
    if tokens = [] then ("", "", 0)
    else
      let counters := tokens.foldl
        (fun (p : List (String × ℕ) × List (String × ℕ)) tok =>
          match dictGet rules tok with
          | some category =>
            if category ≠ "" then (counterBump category p.1, counterBump tok p.2) else p
          | none => p)
        ([], [])
      if counters.1 = [] then ("", "", 0)
      else
        let best := mostCommon1 counters.1
        let best_token := if counters.2 = [] then "" else (mostCommon1 counters.2).1
        (best.1, best_token, roundQ 1000 ((best.2 : ℚ) / max tokens.length 1))

/-- One learned rule row (`Token`, `Category`, `Occurrences`, `Precision`). -/
structure RuleRow where
  Token : String
  Category : String
  Occurrences : ℕ
  Precision : ℚ
deriving DecidableEq

/-- Sort key of the learner's output: occurrences then precision,
descending. -/
def ruleGE (a b : RuleRow) : Prop :=
  b.Occurrences < a.Occurrences ∨
    (a.Occurrences = b.Occurrences ∧ b.Precision ≤ a.Precision)

instance : DecidableRel ruleGE := fun a b => by unfold ruleGE; infer_instance

/-- The training filter: rows whose stripped category is neither blank
nor `"Other"`. -/
def learnWork (labeled : List MapRow) : List MapRow :=
  labeled.filter (fun r => stripS r.Category ≠ "" && stripS r.Category ≠ "Other")

/-- `token_category_counts[token][category] += 1` for one token. -/
def statsBump (tok cat : String) :
    List (String × List (String × ℕ)) → List (String × List (String × ℕ))
  | [] => [(tok, [(cat, 1)])]
  | (t, cc) :: rest =>
    if t = tok then (t, counterBump cat cc) :: rest else (t, cc) :: statsBump tok cat rest

/-- The per-token category counters accumulated over the training rows
(`token_totals` is maintained in lockstep in the source, so the total is
the sum of the per-category counts). -/
def token_stats (work : List MapRow) : List (String × List (String × ℕ)) :=
  work.foldl (fun acc r =>
    let category := stripS r.Category
    if category = "" then acc
    else (tokenize_mapping_text (transaction_text r)).foldl
      (fun acc2 tok => statsBump tok category acc2) acc) []

def counterTotal (cc : List (String × ℕ)) : ℕ := (cc.map (fun e => e.2)).sum

/-- `learn_pattern_rules`: token → category rules gated by support and
precision, sorted by occurrences then precision, descending. -/
def learn_pattern_rules (labeled : List MapRow)
    (min_examples : ℕ := 3) (min_precision : ℚ := 4/5) : List RuleRow :=
  let stats := token_stats (learnWork labeled)
  let rows := stats.filterMap (fun tc =>
    let total := counterTotal tc.2
    if total < min_examples then none
    else
      let best := mostCommon1 tc.2
      let precision : ℚ := (best.2 : ℚ) / max total 1
      if precision < min_precision then none
      else some { Token := tc.1, Category := best.1, Occurrences := total,
                  Precision := roundQ 1000 precision })
  List.insertionSort ruleGE rows

/-- The body of the row loop of `apply_pattern_rules` (`rules` is the
already-normalized map, as in the source). -/
def apply_pattern_row (rules : List (String × String))
    (low_confidence_threshold : ℚ) (r : MapRow) : MapRow :=
  if r.Category ≠ "Other" ∧ low_confidence_threshold ≤ r.CategoryConfidence then r
  else
    let s := suggest_category_from_rules (transaction_text r) rules
    if s.1 = "" then r
    else
      { r with
        Category := s.1,
        CategoryConfidence :=
          max r.CategoryConfidence (min (95/100) (4/5 + s.2.2 * (15/100))),
        CategoryRule := if s.2.1 ≠ "" then "PatternRule:" ++ s.2.1 else r.CategoryRule }

/-- `apply_pattern_rules`: apply token rules to low-confidence rows. -/
def apply_pattern_rules (rows : List MapRow) (rule_map : List (String × String))
    (low_confidence_threshold : ℚ := 3/4) : List MapRow :=
  let rules := normalize_rule_map rule_map
  if rules = [] then rows
  else rows.map (apply_pattern_row rules low_confidence_threshold)

/-! ## `mapping_memory.py`: the persisted rule store

Transcribed from `src/mapping_memory.py`.  The filesystem slot is
modelled as `Option MappingMemory`: `none` is a missing file, and
`some payload` is the parsed JSON document last written (the JSON
codec is the external persistence boundary; `serialize_mapping_memory`
reproduces the exact bytes `json.dumps(payload, indent=2,
ensure_ascii=True)` writes, so byte identity of the persisted document
is payload equality made explicit). -/

/-- The persisted document: three flat string-to-string tables. -/
structure MappingMemory where
  category_overrides : List (String × String)
  merchant_category_rules : List (String × String)
  pattern_category_rules : List (String × String)
deriving DecidableEq

/-- `_normalize_str_dict`: strip keys and values, drop entries whose key
or value strips to empty; last write wins. -/
def normalize_str_dict (raw : List (String × String)) : List (String × String) :=
  raw.foldl (fun acc kv =>
    let key_text := stripS kv.1
    let value_text := stripS kv.2
    if key_text ≠ "" && value_text ≠ "" then dictInsert key_text value_text acc else acc) []

/-- `load_mapping_memory`: a missing file loads as three empty tables;
otherwise each table of the stored payload is normalized. -/
def load_mapping_memory (stored : Option MappingMemory) : MappingMemory :=
  match stored with
  | none => ⟨[], [], []⟩
  | some payload =>
    ⟨normalize_str_dict payload.category_overrides,
     normalize_str_dict payload.merchant_category_rules,
     normalize_str_dict payload.pattern_category_rules⟩

/-- `save_mapping_memory`: the payload written to disk (each table
normalized). -/
def save_mapping_memory (category_overrides merchant_category_rules
    pattern_category_rules : List (String × String)) : MappingMemory :=
  ⟨normalize_str_dict category_overrides,
   normalize_str_dict merchant_category_rules,
   normalize_str_dict pattern_category_rules⟩

/-- Lower-case hexadecimal digit. -/
def hexLower (n : Nat) : Char :=
  if n < 10 then Char.ofNat ('0'.toNat + n) else Char.ofNat ('a'.toNat + (n - 10))

def hex4 (n : Nat) : String :=
  ⟨[hexLower (n / 4096 % 16), hexLower (n / 256 % 16), hexLower (n / 16 % 16),
    hexLower (n % 16)]⟩

/-- `json.dumps` string escaping with `ensure_ascii=True`: escape
backslash, double quote, and everything outside printable ASCII. -/
def escapeJsonChar (c : Char) : String :=
  if c = '"' then "\\\""
  else if c = '\\' then "\\\\"
  else if c = '\n' then "\\n"
  else if c = '\t' then "\\t"
  else if c = '\r' then "\\r"
  else if c = '\x08' then "\\b"
  else if c = '\x0c' then "\\f"
  else if c.toNat < 32 then "\\u" ++ hex4 c.toNat
  else if c.toNat < 127 then ⟨[c]⟩
  else if c.toNat < 65536 then "\\u" ++ hex4 c.toNat
  else
    let v := c.toNat - 65536
    "\\u" ++ hex4 (55296 + v / 1024) ++ "\\u" ++ hex4 (56320 + v % 1024)

def escapeJson (s : String) : String := joinS (s.data.map escapeJsonChar)

/-- One `"key": "value"` line of a nested table at indent 4. -/
def dumpEntry (kv : String × String) : String :=
  "    \"" ++ escapeJson kv.1 ++ "\": \"" ++ escapeJson kv.2 ++ "\""

/-- A nested table as `json.dumps` prints it at `indent=2`. -/
def dumpTable (t : List (String × String)) : String :=
  if t = [] then "\x7b\x7d"
  else "\x7b\n" ++ intercalateS ",\n" (t.map dumpEntry) ++ "\n  \x7d"

/-- The bytes `json.dumps(payload, indent=2, ensure_ascii=True)` writes
for the three-table payload. -/
def serialize_mapping_memory (m : MappingMemory) : String :=
  "\x7b\n  \"category_overrides\": " ++ dumpTable m.category_overrides ++
  ",\n  \"merchant_category_rules\": " ++ dumpTable m.merchant_category_rules ++
  ",\n  \"pattern_category_rules\": " ++ dumpTable m.pattern_category_rules ++
  "\n\x7d"

/-- An entry of a normalized table: key and value fixed by `strip` and
nonempty.  `_normalize_str_dict` produces exactly such entries, which is
what makes a second normalization (and hence `save → load → save`) the
identity on its output. -/
def entryStripped (kv : String × String) : Prop :=
  stripS kv.1 = kv.1 ∧ kv.1 ≠ "" ∧ stripS kv.2 = kv.2 ∧ kv.2 ≠ ""

instance (kv : String × String) : Decidable (entryStripped kv) := by
  unfold entryStripped; infer_instance

/-! ## `analytics.py`: anomaly detection

Transcribed from `detect_anomalies`.  The code computes
`z = (amount - mean)/std` with `std` the *sample* standard deviation
(pandas `groupby(...).std()`, `ddof=1`, undefined for singleton groups),
zero standard deviations replaced by missing values, and
`score = max(|catZ|, |merchZ|)` with missing components skipped and a
fully-missing score filled with 0.  To remain in exact rational
arithmetic the embedding carries the *square* of each component
(`z² = (amount - mean)²/variance`); every comparison the code makes is
monotone in the square, and `score ≥ t  ↔  t ≤ 0 ∨ score² ≥ t²` since
the score is nonnegative. -/

/-- One outflow record as consumed by the anomaly detector. -/
structure AnomRow where
  TransactionId : String := ""
  Category : String := ""
  MerchantNormalized : String := ""
  DebitCHF : ℚ := 0
deriving DecidableEq

/-- `spend = out[out["DebitCHF"] > 0]`. -/
def spendRows (rows : List AnomRow) : List AnomRow :=
  rows.filter (fun r => decide (0 < r.DebitCHF))

def groupMean (l : List ℚ) : ℚ := l.sum / l.length

/-- Sample variance (`ddof = 1`); `none` for groups of fewer than two
members, where pandas `std` is NaN. -/
def groupVar? (l : List ℚ) : Option ℚ :=
  if 2 ≤ l.length then
    some ((l.map (fun x => (x - groupMean l) ^ 2)).sum / ((l.length : ℚ) - 1))
  else none

def catDebits (rows : List AnomRow) (c : String) : List ℚ :=
  ((spendRows rows).filter (fun r => r.Category = c)).map (fun r => r.DebitCHF)

def merchDebits (rows : List AnomRow) (m : String) : List ℚ :=
  ((spendRows rows).filter (fun r => r.MerchantNormalized = m)).map (fun r => r.DebitCHF)

/-- Squared category z-component: `none` when the category standard
deviation is undefined or zero (`.replace(0, pd.NA)`), so the division
never happens. -/
def catZsq? (rows : List AnomRow) (r : AnomRow) : Option ℚ :=
  match groupVar? (catDebits rows r.Category) with
  | some v =>
    if v = 0 then none
    else some ((r.DebitCHF - groupMean (catDebits rows r.Category)) ^ 2 / v)
  | none => none

/-- Squared merchant z-component. -/
def merchZsq? (rows : List AnomRow) (r : AnomRow) : Option ℚ :=
  match groupVar? (merchDebits rows r.MerchantNormalized) with
  | some v =>
    if v = 0 then none
    else some ((r.DebitCHF - groupMean (merchDebits rows r.MerchantNormalized)) ^ 2 / v)
  | none => none

/-- The squared anomaly score: `max(|catZ|, |merchZ|)` squared, with
missing components contributing 0 (`.fillna(0.0)`; both components are
nonnegative, so skipping a missing one equals taking 0 for it). -/
def anomaly_score_sq (rows : List AnomRow) (r : AnomRow) : ℚ :=
  max ((catZsq? rows r).getD 0) ((merchZsq? rows r).getD 0)

/-- `AnomalyScore >= z_threshold`, phrased on the squared score. -/
def anomaly_flagged (rows : List AnomRow) (z_threshold : ℚ) (r : AnomRow) : Bool :=
  decide (z_threshold ≤ 0) || decide (z_threshold ^ 2 ≤ anomaly_score_sq rows r)

/-- Output order: descending anomaly score. -/
def anomGE (rows : List AnomRow) (a b : AnomRow) : Prop :=
  anomaly_score_sq rows b ≤ anomaly_score_sq rows a

instance (rows : List AnomRow) : DecidableRel (anomGE rows) := fun a b => by
  unfold anomGE; infer_instance

/-- `detect_anomalies`: the outflow records whose anomaly score reaches
the threshold, sorted by score descending.  (The source then projects
presentation columns and attaches a reason string embedding the score;
the embedding returns the flagged records themselves.) -/
def detect_anomalies (rows : List AnomRow) (z_threshold : ℚ := 5/2) : List AnomRow :=
  List.insertionSort (anomGE rows) ((spendRows rows).filter (anomaly_flagged rows z_threshold))

/-! ## `analytics.py`: recurring-pattern detection

Transcribed from `recurring_transaction_candidates`.  Dates are modelled
as integer day numbers (`pd.to_datetime(...).dt.normalize()`); a record
whose date fails to parse carries `none` and is dropped, as in the
source. -/

/-- One record as consumed by the recurring detector. -/
structure RecRow where
  Merchant : String := ""
  Date : Option ℤ := none
  DebitCHF : ℚ := 0
  CreditCHF : ℚ := 0
deriving DecidableEq

/-- One recurring-candidate output row. -/
structure RecurringRow where
  Merchant : String
  Occurrences : ℕ
  CadenceDays : ℚ
  AvgSpendingCHF : ℚ
  AvgEarningsCHF : ℚ
  LastSeen : ℤ
  ExpectedNext : ℤ
  SignalConfidence : ℚ
deriving DecidableEq

/-- `working`: records with a parseable date and a non-blank merchant. -/
def datedRows (rows : List RecRow) : List RecRow :=
  rows.filter (fun r => r.Date.isSome && stripS r.Merchant ≠ "")

/-- The group of one merchant. -/
def merchantGroup (rows : List RecRow) (m : String) : List RecRow :=
  (datedRows rows).filter (fun r => r.Merchant = m)

/-- The group's dates in ascending order (`sort_values("DateOnly")`). -/
def groupDatesSorted (rows : List RecRow) (m : String) : List ℤ :=
  List.insertionSort (· ≤ ·) ((merchantGroup rows m).map (fun r => r.Date.getD 0))

/-- Day-over-day intervals between consecutive occurrences (`.diff()`). -/
def diffs : List ℤ → List ℤ
  | [] => []
  | [_] => []
  | a :: b :: t => (b - a) :: diffs (b :: t)

/-- Median of a list of integers (pandas: sort, middle element, or the
mean of the two middle elements). -/
def medianZ (l : List ℤ) : ℚ :=
  let s := List.insertionSort (· ≤ ·) l
  let n := s.length
  if n = 0 then 0
  else if n % 2 = 1 then ((s.getD (n / 2) 0 : ℤ) : ℚ)
  else (((s.getD (n / 2 - 1) 0 + s.getD (n / 2) 0 : ℤ) : ℚ)) / 2

/-- The median day interval of a merchant, `none` when there are no
intervals. -/
def merchantMedian? (rows : List RecRow) (m : String) : Option ℚ :=
  let iv := diffs (groupDatesSorted rows m)
  if iv = [] then none else some (medianZ iv)

/-- `float(series.replace(0, pd.NA).dropna().mean() or 0.0)`: the mean of
the nonzero entries.  (With no nonzero entries the float code produces
NaN — the `or 0.0` never fires because NaN is truthy — which ℚ cannot
represent; the field is not touched by any claim.) -/
def meanNonzeroOrZero (l : List ℚ) : ℚ :=
  let nz := l.filter (fun x => x ≠ 0)
  if nz = [] then 0 else nz.sum / nz.length

/-- The candidate row of one merchant, or `none` when a gate rejects it. -/
def recurring_row? (rows : List RecRow) (min_occurrences : ℕ) (m : String) :
    Option RecurringRow :=
  let ordered := merchantGroup rows m
  if ordered.length < min_occurrences then none
  else
    let iv := diffs (groupDatesSorted rows m)
    if iv = [] then none
    else
      let median_days := medianZ iv
      if 20 ≤ median_days ∧ median_days ≤ 40 then
        let last_seen := (groupDatesSorted rows m).getLast?.getD 0
        let confidence : ℚ := 1 - min (|median_days - 30| / 20) 1
        some { Merchant := m, Occurrences := ordered.length,
               CadenceDays := roundQ 10 median_days,
               AvgSpendingCHF := roundQ 100 (meanNonzeroOrZero (ordered.map (fun r => r.DebitCHF))),
               AvgEarningsCHF := roundQ 100 (meanNonzeroOrZero (ordered.map (fun r => r.CreditCHF))),
               LastSeen := last_seen,
               ExpectedNext := last_seen + intRoundHalfEven median_days,
               SignalConfidence := roundQ 100 (max 0 (min confidence 1)) }
      else none

/-- The distinct merchants of the dated records, ascending (pandas
`groupby` sorts its keys). -/
def merchantsOf (rows : List RecRow) : List String :=
  List.insertionSort (· ≤ ·) ((datedRows rows).map (fun r => r.Merchant)).dedup

/-- Output order: confidence, then occurrences, then average spend,
all descending. -/
def recGE (a b : RecurringRow) : Prop :=
  b.SignalConfidence < a.SignalConfidence ∨
    (a.SignalConfidence = b.SignalConfidence ∧
      (b.Occurrences < a.Occurrences ∨
        (a.Occurrences = b.Occurrences ∧ b.AvgSpendingCHF ≤ a.AvgSpendingCHF)))

instance : DecidableRel recGE := fun a b => by unfold recGE; infer_instance

/-- `recurring_transaction_candidates`. -/
def recurring_transaction_candidates (rows : List RecRow)
    (min_occurrences : ℕ := 3) : List RecurringRow :=
  List.insertionSort recGE ((merchantsOf rows).filterMap (recurring_row? rows min_occurrences))

/-! ## Helper lemmas -/

theorem roundQ_intCast_div (n : ℤ) (s : ℚ) (hs : s ≠ 0) :
    roundQ s ((n : ℚ) / s) = (n : ℚ) / s := by
  unfold roundQ
  rw [div_mul_cancel₀ _ hs]
  norm_num

/-- `transfer_confidence_raw` in closed form. -/
theorem transfer_confidence_raw_eq (text : String) :
    transfer_confidence_raw text =
      15/100 + min (45/100 : ℚ) ((transfer_keyword_hits text : ℚ) / 10) +
        (if counterparty_found text then 35/100 else 0) := by
  unfold transfer_confidence_raw
  rcases Nat.eq_zero_or_pos (transfer_keyword_hits text) with h | h
  · simp only [h, ne_eq, not_true_eq_false, if_false]
    split <;> norm_num
  · have hne : transfer_keyword_hits text ≠ 0 := Nat.pos_iff_ne_zero.mp h
    simp only [hne, ne_eq, not_false_eq_true, if_true]
    have : (1/10 : ℚ) * (transfer_keyword_hits text : ℚ) =
        (transfer_keyword_hits text : ℚ) / 10 := by ring
    rw [this]
    split <;> ring

/-- The raw transfer confidence is a multiple of `1/100` bounded by
`95/100`, so capping at `0.99` and rounding to two decimals are no-ops. -/
theorem transfer_confidence_raw_cases (text : String) :
    ∃ n : ℤ, transfer_confidence_raw text = (n : ℚ) / 100 ∧
      transfer_confidence_raw text ≤ 95/100 := by
  rw [transfer_confidence_raw_eq]
  set h : ℚ := (transfer_keyword_hits text : ℚ) with hh
  have h0 : 0 ≤ h := by positivity
  rcases le_total (45/100 : ℚ) (h / 10) with hle | hle
  · refine ⟨45 + 15 + (if counterparty_found text then 35 else 0), ?_, ?_⟩
    · rw [min_eq_left hle]
      split <;> push_cast <;> ring
    · rw [min_eq_left hle]
      split <;> norm_num
  · have hmin : min (45/100 : ℚ) (h/10) = h/10 := min_eq_right hle
    have hn : ∃ k : ℕ, h = (k : ℚ) := ⟨transfer_keyword_hits text, rfl⟩
    obtain ⟨k, hk⟩ := hn
    refine ⟨15 + 10 * (k : ℤ) + (if counterparty_found text then 35 else 0), ?_, ?_⟩
    · rw [hmin, hk]
      split <;> push_cast <;> ring
    · rw [hmin]
      have : h / 10 ≤ 45/100 := hle
      split <;> linarith

/-- The returned `TransferConfidence` equals the raw accumulator: the
accumulator never exceeds `0.95`, so the `0.99` cap is a no-op, and it is
an integer number of hundredths, so rounding to two decimals is exact. -/
theorem detect_transfer_conf_eq (r : TransferRow) :
    (detect_transfer r).2.2.1 = transfer_confidence_raw (transfer_text r) := by
  obtain ⟨n, hn, hle⟩ := transfer_confidence_raw_cases (transfer_text r)
  show roundQ 100 (min (transfer_confidence_raw (transfer_text r)) (99/100)) = _
  rw [min_eq_left (hle.trans (by norm_num)), hn, roundQ_intCast_div _ _ (by norm_num)]

theorem detect_transfer_isTransfer_eq (r : TransferRow) :
    (detect_transfer r).2.1 =
      decide (1/2 ≤ transfer_confidence_raw (transfer_text r)) := rfl

/-- C2: for every record the transfer detector computes
`transferConfidence = 0.15 + min(0.45, 0.1 × keywordHitCount)
(the bonus being 0 when no keyword occurs) + 0.35` if a counterparty
pattern matched, capped at 0.99, and `isTransfer` holds iff this
confidence is at least 0.5; in particular a record whose description
contains a valid IBAN pattern and the word "TRANSFER" gets
`isTransfer = true` with confidence `0.6 ≥ 0.5`. -/
theorem C2_transfer_confidence :
    (∀ r : TransferRow,
      (detect_transfer r).2.2.1 =
        min (15/100 + min (45/100 : ℚ) ((transfer_keyword_hits (transfer_text r) : ℚ) / 10) +
          (if counterparty_found (transfer_text r) then 35/100 else 0)) (99/100) ∧
      ((detect_transfer r).2.1 = true ↔
        1/2 ≤ transfer_confidence_raw (transfer_text r))) ∧
    detect_transfer { Beschreibung1 := "TRANSFER CH93 0076 2011 6238 5295", DebitCHF := 500 } =
      (true, true, 3/5, "Out") ∧
    (1/2 : ℚ) ≤ 3/5 := by
  refine ⟨fun r => ⟨?_, ?_⟩, by with_unfolding_all decide, by norm_num⟩
  · obtain ⟨n, hn, hle⟩ := transfer_confidence_raw_cases (transfer_text r)
    rw [detect_transfer_conf_eq, ← transfer_confidence_raw_eq,
      min_eq_left (hle.trans (by norm_num))]
  · rw [detect_transfer_isTransfer_eq]
    exact decide_eq_true_iff

/-- C9: a counterparty-pattern match alone flags a transfer (0.15 + 0.35
reaches the 0.5 threshold); without one, a record is flagged iff at least
4 of the 8 distinct transfer keywords occur; and the confidence never
exceeds 0.95, so the 0.99 cap is never reached. -/
theorem C9_transfer_thresholds :
    (∀ r : TransferRow, counterparty_found (transfer_text r) = true →
        (detect_transfer r).2.1 = true) ∧
    (∀ r : TransferRow, counterparty_found (transfer_text r) = false →
        ((detect_transfer r).2.1 = true ↔
          4 ≤ transfer_keyword_hits (transfer_text r))) ∧
    (∀ r : TransferRow, (detect_transfer r).2.2.1 ≤ 95/100 ∧
        transfer_confidence_raw (transfer_text r) < 99/100) := by
  refine ⟨fun r hc => ?_, fun r hc => ?_, fun r => ?_⟩
  · rw [detect_transfer_isTransfer_eq, decide_eq_true_iff]
    rw [transfer_confidence_raw_eq, hc, if_pos rfl]
    have h0 : (0:ℚ) ≤ min (45/100 : ℚ) ((transfer_keyword_hits (transfer_text r) : ℚ) / 10) :=
      le_min (by norm_num) (by positivity)
    linarith
  · rw [detect_transfer_isTransfer_eq, decide_eq_true_iff]
    rw [transfer_confidence_raw_eq, hc, if_neg (by simp)]
    set h : ℚ := (transfer_keyword_hits (transfer_text r) : ℚ) with hh
    constructor
    · intro hge
      by_contra hlt
      push_neg at hlt
      have h3 : h ≤ 3 := by
        rw [hh]
        exact_mod_cast Nat.le_of_lt_succ hlt
      have : min (45/100 : ℚ) (h/10) ≤ h/10 := min_le_right _ _
      linarith
    · intro h4
      have h4q : (4:ℚ) ≤ h := by rw [hh]; exact_mod_cast h4
      have : min (45/100 : ℚ) (h/10) ≥ 35/100 := le_min (by norm_num) (by linarith)
      linarith
  · obtain ⟨n, hn, hle⟩ := transfer_confidence_raw_cases (transfer_text r)
    rw [detect_transfer_conf_eq]
    exact ⟨hle, lt_of_le_of_lt hle (by norm_num)⟩

/-- Witness for C9: a record whose description is a bare IBAN pattern is
flagged as a transfer by the counterparty bonus alone. -/
theorem C9_transfer_thresholds_witness :
    counterparty_found (transfer_text { Beschreibung1 := "CH93 0076 2011 6238 5295" }) = true ∧
    (detect_transfer { Beschreibung1 := "CH93 0076 2011 6238 5295" }).2.1 = true :=
  ⟨by decide, C9_transfer_thresholds.1 _ (by decide)⟩

/-- C8 (counterexample): the claim quantifies over every record, but the
cash-withdrawal fixed rule fires only for outgoing records; an incoming
record whose description contains "ATM" is classified by the flow
fallback instead. -/
theorem C8_cash_withdrawal_counterexample :
    containsSubS "ATM" (description_of { Beschreibung1 := "ATM", Credit := 100 }) = true ∧
    assign { Beschreibung1 := "ATM", Credit := 100 } [] ≠
      ("Transfers", 24/25, "Transfer:CashWithdrawal") :=
  ⟨by decide, by with_unfolding_all decide⟩

/-- C8 (amended): for every *outgoing* record (debit > 0, credit = 0)
whose concatenated uppercased description contains a cash-withdrawal
phrase, the classifier assigns `Transfers` at fixed confidence 0.96 with
the cash-withdrawal rule id, pre-empting the transfer-keyword scan and
the caller-supplied keyword table. -/
theorem C8_cash_withdrawal_outgoing :
    ∀ (r : TxRow) (km : List (String × List String)),
      outgoing_of r = true →
      (containsSubS "BARGELDBEZUG" (description_of r) ||
       containsSubS "BANCOMAT" (description_of r) ||
       containsSubS "ATM" (description_of r)) = true →
      assign r km = ("Transfers", 24/25, "Transfer:CashWithdrawal") := by
  intro r km ho hc
  have hfix : fixed_rule_hit r = some ("Transfers", 24/25, "Transfer:CashWithdrawal") := by
    unfold fixed_rule_hit
    simp only [ho, hc, Bool.and_self, if_true, Bool.true_and]
  unfold assign
  rw [hfix]

/-- Witness for the amended C8 at an outgoing record. -/
theorem C8_cash_withdrawal_outgoing_witness :
    outgoing_of { Beschreibung1 := "BANCOMAT BEZUG", Debit := 200 } = true ∧
    assign { Beschreibung1 := "BANCOMAT BEZUG", Debit := 200 } [] =
      ("Transfers", 24/25, "Transfer:CashWithdrawal") :=
  ⟨by with_unfolding_all decide,
   C8_cash_withdrawal_outgoing _ _ (by with_unfolding_all decide) (by decide)⟩

/-- C10: the income scan accepts any income keyword occurring as a bare
substring of the description (no delimited-word requirement), an income
hit after the earlier stages miss yields `("Income & Transfers", 0.95)`,
and in particular a purely incoming record whose description contains
"RENT" only inside "PARENTS" is classified as income at 0.95. -/
theorem C10_income_bare_substring :
    (∀ (desc kw : String), kw ∈ INCOME_KEYWORDS → containsSubS kw desc = true →
        income_hit desc ≠ none) ∧
    (∀ (r : TxRow) (km : List (String × List String)) (kw : String),
        incoming_of r = true →
        fixed_rule_hit r = none →
        transfer_hit (description_of r) = none →
        income_hit (description_of r) = some kw →
        assign r km = ("Income & Transfers", 19/20, "Income:" ++ kw)) ∧
    assign { Beschreibung1 := "PARENTS", Credit := 100 } [] =
      ("Income & Transfers", 19/20, "Income:RENT") := by
  refine ⟨?_, ?_, by with_unfolding_all decide⟩
  · intro desc kw hmem hsub hnone
    unfold income_hit at hnone
    rw [Option.map_eq_none'] at hnone
    rw [List.find?_eq_none] at hnone
    have hup : upperS kw = kw := by fin_cases hmem <;> decide
    have hne : kw ≠ "" := by fin_cases hmem <;> decide
    have := hnone kw hmem
    simp [hup, hne, hsub] at this
  · intro r km kw hinc hfix htr hih
    unfold assign
    rw [hfix, htr]
    simp only [hinc, if_true, hih]

/-- Witness for C10 at the "RENT inside PARENTS" record. -/
theorem C10_income_bare_substring_witness :
    incoming_of { Beschreibung1 := "PARENTS", Credit := 100 } = true ∧
    containsSubS "RENT" (description_of { Beschreibung1 := "PARENTS", Credit := 100 }) = true ∧
    assign { Beschreibung1 := "PARENTS", Credit := 100 } [] =
      ("Income & Transfers", 19/20, "Income:RENT") :=
  ⟨by with_unfolding_all decide, by decide,
   C10_income_bare_substring.2.1 _ [] "RENT" (by with_unfolding_all decide)
     (by with_unfolding_all decide) (by decide) (by decide)⟩

/-- Any hit of the keyword-table scan carries the confidence computed by
`score_keyword_match` on the rule-id keyword. -/
theorem table_scan_eq_score (d m : String) (o i : Bool) :
    ∀ (km : List (String × List String)) (cat : String) (conf : ℚ) (rid : String),
      table_scan d m o i km = some (cat, conf, rid) →
      conf = score_keyword_match d m rid := by
  intro km
  induction km with
  | nil => intro cat conf rid h; simp [table_scan] at h
  | cons hd tl ih =>
    intro cat conf rid h
    obtain ⟨category, keywords⟩ := hd
    unfold table_scan at h
    split at h
    · exact ih cat conf rid h
    · split at h
      · exact ih cat conf rid h
      · split at h
        · rename_i k hk
          simp only [Option.some.injEq, Prod.mk.injEq] at h
          obtain ⟨e1, e2, e3⟩ := h
          rw [← e2, ← e3]
        · exact ih cat conf rid h

/-- C1: whenever the classifier's result comes from the caller-supplied
keyword table (the fixed rules, the transfer scan and the income scan all
missing), the returned confidence is 0.75, plus 0.15 if the matched
keyword occurs in the merchant field, plus 0.06 if it occurs
`\b`-delimited in the concatenated uppercased description, capped at
0.98. -/
theorem C1_keyword_table_score :
    ∀ (r : TxRow) (km : List (String × List String)) (cat : String) (conf : ℚ) (rid : String),
      fixed_rule_hit r = none →
      transfer_hit (description_of r) = none →
      (incoming_of r = true → income_hit (description_of r) = none) →
      table_scan (description_of r) (merchant_of r) (outgoing_of r) (incoming_of r) km =
        some (cat, conf, rid) →
      assign r km = (cat, conf, rid) ∧
      conf = min ((3/4 : ℚ) +
          (if containsSubS rid (merchant_of r) then 3/20 else 0) +
          (if searchWordBS rid (description_of r) then 3/50 else 0)) (49/50) := by
  intro r km cat conf rid hfix htr hinc htab
  constructor
  · unfold assign
    rw [hfix, htr]
    have hi : (if incoming_of r = true then income_hit (description_of r) else none) = none := by
      by_cases h : incoming_of r = true
      · rw [if_pos h]; exact hinc h
      · rw [if_neg h]
    rw [hi, htab]
  · rw [table_scan_eq_score _ _ _ _ km cat conf rid htab]
    unfold score_keyword_match
    split_ifs <;> norm_num

/-- Witness for C1: the "UBER EATS ZURICH" scenario, keyword table
`[("Food & Drink", ["UBER EATS"])]`: category `"Food & Drink"` at
confidence 0.96 ≥ 0.75. -/
theorem C1_keyword_table_score_witness :
    assign { Beschreibung1 := "UBER EATS ZURICH", Debit := 65/2 }
        [("Food & Drink", ["UBER EATS"])] =
      ("Food & Drink", 24/25, "UBER EATS") ∧ (3/4 : ℚ) ≤ 24/25 :=
  ⟨(C1_keyword_table_score _ _ "Food & Drink" (24/25) "UBER EATS"
      (by with_unfolding_all decide) (by decide)
      (fun h => absurd h (by with_unfolding_all decide))
      (by with_unfolding_all decide)).1,
   by norm_num⟩

/-- C4: the rule applier leaves a record untouched when its category is
not `"Other"` and its confidence is at or above the low-confidence
threshold, and whenever a pattern rule applies, the resulting confidence
is `max(currentConfidence, min(0.95, 0.8 + 0.15 × matchScore))` with the
suggested category installed.  At the collection level the applier is the
identity or the row map, depending only on whether the normalized rule
map is empty. -/
theorem C4_apply_pattern_rules :
    (∀ (rows : List MapRow) (rule_map : List (String × String)) (thr : ℚ),
      apply_pattern_rules rows rule_map thr = rows ∨
      apply_pattern_rules rows rule_map thr =
        rows.map (apply_pattern_row (normalize_rule_map rule_map) thr)) ∧
    (∀ (rules : List (String × String)) (thr : ℚ) (r : MapRow),
      r.Category ≠ "Other" → thr ≤ r.CategoryConfidence →
      apply_pattern_row rules thr r = r) ∧
    (∀ (rules : List (String × String)) (thr : ℚ) (r : MapRow)
        (c tok : String) (sc : ℚ),
      ¬(r.Category ≠ "Other" ∧ thr ≤ r.CategoryConfidence) →
      suggest_category_from_rules (transaction_text r) rules = (c, tok, sc) →
      c ≠ "" →
      (apply_pattern_row rules thr r).Category = c ∧
      (apply_pattern_row rules thr r).CategoryConfidence =
        max r.CategoryConfidence (min (95/100) (4/5 + sc * (15/100)))) := by
  refine ⟨fun rows rule_map thr => ?_, fun rules thr r h1 h2 => ?_,
    fun rules thr r c tok sc hskip hsug hc => ?_⟩
  · unfold apply_pattern_rules
    by_cases h : normalize_rule_map rule_map = []
    · left; rw [if_pos h]
    · right; rw [if_neg h]
  · unfold apply_pattern_row
    rw [if_pos ⟨h1, h2⟩]
  · unfold apply_pattern_row
    rw [if_neg hskip, hsug]
    simp [hc]

/-- Witness for C4: a confident non-`"Other"` record is unchanged, and a
low-confidence record picking up the `MIGROS → Groceries` rule lands at
confidence `max(0.22, min(0.95, 0.8 + 0.5 × 0.15)) = 0.875`. -/
theorem C4_apply_pattern_rules_witness :
    apply_pattern_row (normalize_rule_map [("MIGROS", "Groceries")]) (3/4)
        { Merchant := "MIGROS FILIALE", Category := "Restaurants", CategoryConfidence := 9/10 } =
      { Merchant := "MIGROS FILIALE", Category := "Restaurants", CategoryConfidence := 9/10 } ∧
    (apply_pattern_row (normalize_rule_map [("MIGROS", "Groceries")]) (3/4)
        { Merchant := "MIGROS FILIALE", Category := "Other", CategoryConfidence := 11/50 }).Category =
      "Groceries" ∧
    (apply_pattern_row (normalize_rule_map [("MIGROS", "Groceries")]) (3/4)
        { Merchant := "MIGROS FILIALE", Category := "Other", CategoryConfidence := 11/50 }).CategoryConfidence =
      max (11/50) (min (95/100) (4/5 + (1/2) * (15/100))) :=
  ⟨C4_apply_pattern_rules.2.1 _ _ _ (by decide) (by with_unfolding_all decide),
   (C4_apply_pattern_rules.2.2 _ _ _ "Groceries" "MIGROS" (1/2)
      (by with_unfolding_all decide) (by with_unfolding_all decide) (by decide)).1,
   (C4_apply_pattern_rules.2.2 _ _ _ "Groceries" "MIGROS" (1/2)
      (by with_unfolding_all decide) (by with_unfolding_all decide) (by decide)).2⟩

/-! ### Idempotence of normalization (for C5) -/

theorem dropWhile_idem (p : α → Bool) (l : List α) :
    (l.dropWhile p).dropWhile p = l.dropWhile p := by
  cases h : l.dropWhile p with
  | nil => simp
  | cons c t =>
    have hc := List.head?_dropWhile_not p l
    rw [h] at hc
    simp only [List.head?_cons] at hc
    simp [List.dropWhile_cons, hc]

theorem dropWhile_eq_self_of_head (p : α → Bool) (l : List α)
    (h : ∀ c, l.head? = some c → p c = false) : l.dropWhile p = l := by
  cases l with
  | nil => rfl
  | cons c t => simp [List.dropWhile_cons, h c rfl]

theorem getLast?_dropWhile_of_ne_nil (p : α → Bool) (l : List α)
    (h : l.dropWhile p ≠ []) : (l.dropWhile p).getLast? = l.getLast? := by
  induction l with
  | nil => simp at h
  | cons c t ih =>
    rw [List.dropWhile_cons] at h ⊢
    by_cases hc : p c = true
    · rw [if_pos hc] at h ⊢
      have ht : t ≠ [] := by
        rintro rfl
        simp at h
      obtain ⟨x, t', rfl⟩ := List.exists_cons_of_ne_nil ht
      rw [ih h, List.getLast?_cons_cons]
    · rw [if_neg hc]

theorem stripChars_idem (l : List Char) : stripChars (stripChars l) = stripChars l := by
  unfold stripChars
  set p := isPyWs with hp
  set y := l.dropWhile p with hy
  set z := y.reverse.dropWhile p with hz
  by_cases hzne : z = []
  · rw [hzne]; simp
  · have hzs : z.reverse.dropWhile p = z.reverse := by
      apply dropWhile_eq_self_of_head
      intro d hd
      rw [List.head?_reverse] at hd
      rw [hz] at hd
      rw [getLast?_dropWhile_of_ne_nil p y.reverse (by rw [← hz]; exact hzne)] at hd
      rw [List.getLast?_reverse] at hd
      have h2 := List.head?_dropWhile_not p l
      rw [← hy] at h2
      rw [hd] at h2
      exact h2
    rw [hzs, List.reverse_reverse]
    have hzfix : z.dropWhile p = z := by
      conv_lhs => rw [hz]
      rw [dropWhile_idem, ← hz]
    rw [hzfix]

theorem stripS_idem (s : String) : stripS (stripS s) = stripS s := by
  show String.mk (stripChars (String.mk (stripChars s.data)).data) = _
  rw [show (String.mk (stripChars s.data)).data = stripChars s.data from rfl, stripChars_idem]
  rfl

theorem dictInsert_of_not_mem (k v : String) (acc : List (String × String))
    (h : ∀ kv ∈ acc, kv.1 ≠ k) : dictInsert k v acc = acc ++ [(k, v)] := by
  induction acc with
  | nil => rfl
  | cons hd tl ih =>
    unfold dictInsert
    rw [if_neg (h hd (by simp))]
    rw [ih (fun kv hkv => h kv (by simp [hkv]))]
    simp

theorem mem_dictInsert (e : String × String) (k v : String) (acc : List (String × String))
    (h : e ∈ dictInsert k v acc) : e = (k, v) ∨ e ∈ acc := by
  induction acc with
  | nil => simpa [dictInsert] using h
  | cons hd tl ih =>
    unfold dictInsert at h
    by_cases hk : hd.1 = k
    · rw [if_pos hk] at h
      rcases List.mem_cons.mp h with h1 | h1
      · left; exact h1
      · right; simp [h1]
    · rw [if_neg hk] at h
      rcases List.mem_cons.mp h with h1 | h1
      · right; simp [h1]
      · rcases ih h1 with h2 | h2
        · left; exact h2
        · right; simp [h2]

theorem map_fst_dictInsert (k v : String) (acc : List (String × String)) :
    (dictInsert k v acc).map Prod.fst =
      if k ∈ acc.map Prod.fst then acc.map Prod.fst else acc.map Prod.fst ++ [k] := by
  induction acc with
  | nil => simp [dictInsert]
  | cons hd tl ih =>
    unfold dictInsert
    by_cases hk : hd.1 = k
    · rw [if_pos hk]
      have : k ∈ (hd :: tl).map Prod.fst := by simp [← hk]
      rw [if_pos this]
      simp [hk]
    · rw [if_neg hk]
      simp only [List.map_cons, ih]
      by_cases hm : k ∈ tl.map Prod.fst
      · rw [if_pos hm, if_pos (by simp [hm])]
      · rw [if_neg hm, if_neg (by
          simp only [List.map_cons, List.mem_cons, not_or]
          exact ⟨fun h => hk h.symm, hm⟩)]
        simp

/-- The entries produced by `_normalize_str_dict` are stripped and
nonempty, and its keys are unique. -/
theorem normalize_str_dict_inv (l : List (String × String)) :
    (∀ kv ∈ normalize_str_dict l, entryStripped kv) ∧
    ((normalize_str_dict l).map Prod.fst).Nodup := by
  suffices h : ∀ acc : List (String × String),
      (∀ kv ∈ acc, entryStripped kv) → (acc.map Prod.fst).Nodup →
      (∀ kv ∈ l.foldl (fun acc kv =>
          let key_text := stripS kv.1
          let value_text := stripS kv.2
          if key_text ≠ "" && value_text ≠ "" then dictInsert key_text value_text acc else acc) acc,
        entryStripped kv) ∧
      ((l.foldl (fun acc kv =>
          let key_text := stripS kv.1
          let value_text := stripS kv.2
          if key_text ≠ "" && value_text ≠ "" then dictInsert key_text value_text acc else acc) acc).map
        Prod.fst).Nodup by
    exact h [] (by simp) (by simp)
  induction l with
  | nil => intro acc h1 h2; exact ⟨h1, h2⟩
  | cons hd tl ih =>
    intro acc h1 h2
    rw [List.foldl_cons]
    apply ih
    · intro kv hkv
      by_cases hc : (stripS hd.1 ≠ "" && stripS hd.2 ≠ "") = true
      · rw [if_pos hc] at hkv
        rcases mem_dictInsert kv _ _ acc hkv with h | h
        · obtain ⟨hne1, hne2⟩ := by simpa using hc
          exact h ▸ ⟨stripS_idem hd.1, hne1, stripS_idem hd.2, hne2⟩
        · exact h1 kv h
      · rw [if_neg hc] at hkv
        exact h1 kv hkv
    · by_cases hc : (stripS hd.1 ≠ "" && stripS hd.2 ≠ "") = true
      · rw [if_pos hc, map_fst_dictInsert]
        split
        · exact h2
        · rename_i hnm
          rw [List.nodup_append]
          refine ⟨h2, by simp, ?_⟩
          intro a ha hb
          simp only [List.mem_singleton] at hb
          subst hb
          exact hnm ha
      · rw [if_neg hc]; exact h2

/-- On a list of stripped, nonempty entries with unique keys, the
normalization fold is the identity. -/
theorem normalize_str_dict_fixed :
    ∀ (l acc : List (String × String)),
      (∀ kv ∈ l, entryStripped kv) → ((acc ++ l).map Prod.fst).Nodup →
      l.foldl (fun acc kv =>
          let key_text := stripS kv.1
          let value_text := stripS kv.2
          if key_text ≠ "" && value_text ≠ "" then dictInsert key_text value_text acc else acc) acc =
        acc ++ l := by
  intro l
  induction l with
  | nil => intro acc _ _; simp
  | cons hd tl ih =>
    intro acc hstr hnd
    rw [List.foldl_cons]
    obtain ⟨e1, e2, e3, e4⟩ := hstr hd (by simp)
    have hc : (stripS hd.1 ≠ "" && stripS hd.2 ≠ "") = true := by
      simp [e1, e2, e3, e4]
    rw [if_pos hc, e1, e3]
    have hnotin : ∀ kv ∈ acc, kv.1 ≠ hd.1 := by
      intro kv hkv heq
      rw [List.map_append, List.nodup_append] at hnd
      exact hnd.2.2 (List.mem_map_of_mem Prod.fst hkv) (by simp [heq])
    rw [dictInsert_of_not_mem _ _ _ hnotin]
    have hre : acc ++ hd :: tl = (acc ++ [hd]) ++ tl := by simp
    rw [ih (acc ++ [hd]) (fun kv h => hstr kv (by simp [h])) (by rw [← hre]; exact hnd)]
    simp

theorem normalize_str_dict_idem (l : List (String × String)) :
    normalize_str_dict (normalize_str_dict l) = normalize_str_dict l := by
  obtain ⟨h1, h2⟩ := normalize_str_dict_inv l
  show (normalize_str_dict l).foldl _ [] = _
  rw [normalize_str_dict_fixed (normalize_str_dict l) [] h1 (by simpa using h2)]
  simp

/-- C5 (counterexample): save followed by load does not return every
table exactly — normalization strips keys, so the table
`[("a ", "b")]` comes back as `[("a", "b")]`. -/
theorem C5_roundtrip_counterexample :
    load_mapping_memory (some (save_mapping_memory [("a ", "b")] [] [])) ≠
      MappingMemory.mk [("a ", "b")] [] [] := by decide

/-- C5 (amended): a missing file loads as three empty tables; save
followed by load returns the three tables with keys and values
whitespace-stripped and empty entries dropped — exactly the original
tables whenever they are already in that normalized form — and
save → load → save produces byte-identical persisted documents. -/
theorem C5_store_roundtrip :
    load_mapping_memory none = MappingMemory.mk [] [] [] ∧
    (∀ a b c : List (String × String),
      load_mapping_memory (some (save_mapping_memory a b c)) =
        MappingMemory.mk (normalize_str_dict a) (normalize_str_dict b) (normalize_str_dict c)) ∧
    (∀ a b c : List (String × String),
      normalize_str_dict a = a → normalize_str_dict b = b → normalize_str_dict c = c →
      load_mapping_memory (some (save_mapping_memory a b c)) = MappingMemory.mk a b c) ∧
    (∀ a b c : List (String × String),
      serialize_mapping_memory
        (save_mapping_memory
          (load_mapping_memory (some (save_mapping_memory a b c))).category_overrides
          (load_mapping_memory (some (save_mapping_memory a b c))).merchant_category_rules
          (load_mapping_memory (some (save_mapping_memory a b c))).pattern_category_rules) =
      serialize_mapping_memory (save_mapping_memory a b c)) := by
  have hload : ∀ a b c : List (String × String),
      load_mapping_memory (some (save_mapping_memory a b c)) =
        MappingMemory.mk (normalize_str_dict a) (normalize_str_dict b) (normalize_str_dict c) := by
    intro a b c
    show MappingMemory.mk (normalize_str_dict (normalize_str_dict a))
        (normalize_str_dict (normalize_str_dict b))
        (normalize_str_dict (normalize_str_dict c)) = _
    rw [normalize_str_dict_idem, normalize_str_dict_idem, normalize_str_dict_idem]
  refine ⟨rfl, hload, ?_, ?_⟩
  · intro a b c ha hb hc
    rw [hload a b c, ha, hb, hc]
  · intro a b c
    rw [hload a b c]
    show serialize_mapping_memory
        (MappingMemory.mk (normalize_str_dict (normalize_str_dict a))
          (normalize_str_dict (normalize_str_dict b))
          (normalize_str_dict (normalize_str_dict c))) = _
    rw [normalize_str_dict_idem, normalize_str_dict_idem, normalize_str_dict_idem]
    rfl

/-- Witness for the amended C5: an already-normalized store round-trips
exactly. -/
theorem C5_store_roundtrip_witness :
    load_mapping_memory (some (save_mapping_memory [("A", "B")] [] [("MIGROS", "Groceries")])) =
      MappingMemory.mk [("A", "B")] [] [("MIGROS", "Groceries")] :=
  C5_store_roundtrip.2.2.1 _ _ _ (by decide) (by decide) (by decide)

instance (rows : List AnomRow) : IsTotal AnomRow (anomGE rows) :=
  ⟨fun _ _ => le_total _ _⟩

instance (rows : List AnomRow) : IsTrans AnomRow (anomGE rows) :=
  ⟨fun _ _ _ h1 h2 => le_trans h2 h1⟩

/-- Membership in the anomaly output is exactly "outflow record whose
score reaches the threshold". -/
theorem mem_detect_anomalies (rows : List AnomRow) (t : ℚ) (r : AnomRow) :
    r ∈ detect_anomalies rows t ↔
      r ∈ rows ∧ 0 < r.DebitCHF ∧ anomaly_flagged rows t r = true := by
  unfold detect_anomalies
  rw [List.mem_insertionSort, List.mem_filter]
  unfold spendRows
  rw [List.mem_filter]
  simp [and_assoc]

/-- A zero or undefined category variance yields no category component. -/
theorem catZsq_none_of_degenerate (rows : List AnomRow) (r : AnomRow)
    (h : groupVar? (catDebits rows r.Category) = none ∨
      groupVar? (catDebits rows r.Category) = some 0) :
    catZsq? rows r = none := by
  unfold catZsq?
  rcases h with h | h <;> rw [h]
  simp

/-- A zero or undefined merchant variance yields no merchant component. -/
theorem merchZsq_none_of_degenerate (rows : List AnomRow) (r : AnomRow)
    (h : groupVar? (merchDebits rows r.MerchantNormalized) = none ∨
      groupVar? (merchDebits rows r.MerchantNormalized) = some 0) :
    merchZsq? rows r = none := by
  unfold merchZsq?
  rcases h with h | h <;> rw [h]
  simp

/-- A record sitting exactly at its category mean contributes a zero
category component. -/
theorem catZsq_getD_zero_of_mean (rows : List AnomRow) (r : AnomRow)
    (hm : r.DebitCHF = groupMean (catDebits rows r.Category)) :
    (catZsq? rows r).getD 0 = 0 := by
  unfold catZsq?
  cases h : groupVar? (catDebits rows r.Category) with
  | none => rfl
  | some v =>
    by_cases hv : v = 0
    · simp [hv]
    · simp [hv, ← hm]

theorem merchZsq_getD_zero_of_mean (rows : List AnomRow) (r : AnomRow)
    (hm : r.DebitCHF = groupMean (merchDebits rows r.MerchantNormalized)) :
    (merchZsq? rows r).getD 0 = 0 := by
  unfold merchZsq?
  cases h : groupVar? (merchDebits rows r.MerchantNormalized) with
  | none => rfl
  | some v =>
    by_cases hv : v = 0
    · simp [hv]
    · simp [hv, ← hm]

/-- A record with zero anomaly score is not flagged at any positive
threshold. -/
theorem not_flagged_of_score_zero (rows : List AnomRow) (t : ℚ) (r : AnomRow)
    (hs : anomaly_score_sq rows r = 0) (ht : 0 < t) :
    r ∉ detect_anomalies rows t := by
  rw [mem_detect_anomalies]
  rintro ⟨-, -, hf⟩
  unfold anomaly_flagged at hf
  rw [hs] at hf
  rcases Bool.or_eq_true_iff.mp hf with h | h
  · rw [decide_eq_true_iff] at h
    linarith
  · rw [decide_eq_true_iff] at h
    nlinarith

/-- C6: the anomaly detector never divides by zero — a zero-variance (or
singleton) category or merchant group contributes no z-component and, with
both components missing, never causes a flag; a record whose debit equals
both its category mean and its merchant mean has anomaly score 0 and is
never flagged at a positive threshold; and the output is exactly the
outflow records whose score reaches the threshold, sorted by score
descending. -/
theorem C6_anomaly_detector :
    ∀ (rows : List AnomRow) (t : ℚ),
      (∀ r ∈ spendRows rows,
        ((groupVar? (catDebits rows r.Category) = none ∨
          groupVar? (catDebits rows r.Category) = some 0) → catZsq? rows r = none) ∧
        ((groupVar? (merchDebits rows r.MerchantNormalized) = none ∨
          groupVar? (merchDebits rows r.MerchantNormalized) = some 0) →
            merchZsq? rows r = none) ∧
        (catZsq? rows r = none → merchZsq? rows r = none →
          anomaly_score_sq rows r = 0 ∧ (0 < t → r ∉ detect_anomalies rows t))) ∧
      (∀ r ∈ spendRows rows,
        r.DebitCHF = groupMean (catDebits rows r.Category) →
        r.DebitCHF = groupMean (merchDebits rows r.MerchantNormalized) →
        anomaly_score_sq rows r = 0 ∧ (0 < t → r ∉ detect_anomalies rows t)) ∧
      (∀ r, r ∈ detect_anomalies rows t ↔
        r ∈ rows ∧ 0 < r.DebitCHF ∧ anomaly_flagged rows t r = true) ∧
      List.Sorted (anomGE rows) (detect_anomalies rows t) := by
  intro rows t
  refine ⟨fun r _ => ⟨catZsq_none_of_degenerate rows r,
      merchZsq_none_of_degenerate rows r, fun hc hm => ?_⟩,
    fun r _ hc hm => ?_, mem_detect_anomalies rows t,
    List.sorted_insertionSort _ _⟩
  · have hs : anomaly_score_sq rows r = 0 := by
      unfold anomaly_score_sq
      rw [hc, hm]
      simp
    exact ⟨hs, not_flagged_of_score_zero rows t r hs⟩
  · have hs : anomaly_score_sq rows r = 0 := by
      unfold anomaly_score_sq
      rw [catZsq_getD_zero_of_mean rows r hc, merchZsq_getD_zero_of_mean rows r hm]
      simp
    exact ⟨hs, not_flagged_of_score_zero rows t r hs⟩

/-- Witness for C6: two identical debits in one category/merchant form a
zero-variance group; each sits at both means, has score 0 and is not
flagged at the default threshold 2.5. -/
theorem C6_anomaly_detector_witness :
    anomaly_score_sq
        [{ TransactionId := "a", Category := "Food", MerchantNormalized := "M", DebitCHF := 10 },
         { TransactionId := "b", Category := "Food", MerchantNormalized := "M", DebitCHF := 10 }]
        { TransactionId := "a", Category := "Food", MerchantNormalized := "M", DebitCHF := 10 } = 0 ∧
    { TransactionId := "a", Category := "Food", MerchantNormalized := "M", DebitCHF := 10 } ∉
      detect_anomalies
        [{ TransactionId := "a", Category := "Food", MerchantNormalized := "M", DebitCHF := 10 },
         { TransactionId := "b", Category := "Food", MerchantNormalized := "M", DebitCHF := 10 }]
        (5/2) := by
  have h := (C6_anomaly_detector
    [{ TransactionId := "a", Category := "Food", MerchantNormalized := "M", DebitCHF := 10 },
     { TransactionId := "b", Category := "Food", MerchantNormalized := "M", DebitCHF := 10 }]
    (5/2)).2.1
    { TransactionId := "a", Category := "Food", MerchantNormalized := "M", DebitCHF := 10 }
    (by with_unfolding_all decide) (by with_unfolding_all decide) (by with_unfolding_all decide)
  exact ⟨h.1, h.2 (by norm_num)⟩

instance : IsTotal RecurringRow recGE := by
  constructor
  intro a b
  unfold recGE
  rcases lt_trichotomy a.SignalConfidence b.SignalConfidence with h | h | h
  · right; left; exact h
  · rcases lt_trichotomy a.Occurrences b.Occurrences with h2 | h2 | h2
    · right; right; exact ⟨h.symm, Or.inl h2⟩
    · rcases le_total b.AvgSpendingCHF a.AvgSpendingCHF with h3 | h3
      · left; right; exact ⟨h, Or.inr ⟨h2, h3⟩⟩
      · right; right; exact ⟨h.symm, Or.inr ⟨h2.symm, h3⟩⟩
    · left; right; exact ⟨h, Or.inl h2⟩
  · left; left; exact h

instance : IsTrans RecurringRow recGE := by
  constructor
  intro a b c hab hbc
  unfold recGE at hab hbc ⊢
  rcases hab with h1 | ⟨e1, h1⟩ <;> rcases hbc with h2 | ⟨e2, h2⟩
  · left; exact h2.trans h1
  · left; exact e2 ▸ h1
  · left; exact lt_of_lt_of_le h2 (le_of_eq e1.symm)
  · right
    refine ⟨e1.trans e2, ?_⟩
    rcases h1 with g1 | ⟨f1, g1⟩ <;> rcases h2 with g2 | ⟨f2, g2⟩
    · left; exact g2.trans g1
    · left; exact f2 ▸ g1
    · left; exact lt_of_lt_of_le g2 (le_of_eq f1.symm)
    · right; exact ⟨f1.trans f2, g2.trans g1⟩

/-- Membership in the recurring output comes from some merchant's
candidate row. -/
theorem mem_recurring_candidates (rows : List RecRow) (min_occurrences : ℕ)
    (row : RecurringRow) :
    row ∈ recurring_transaction_candidates rows min_occurrences ↔
      ∃ m ∈ merchantsOf rows, recurring_row? rows min_occurrences m = some row := by
  unfold recurring_transaction_candidates
  rw [List.mem_insertionSort, List.mem_filterMap]

/-- C7 (amended): every merchant returned by the recurring detector has
at least `minOccurrences` dated records and a median day interval in
[20, 40], no merchant failing either gate is returned, and the reported
confidence is `1 − min(|median − 30|/20, 1)`, clamped to [0, 1] and
rounded to two decimals. -/
theorem C7_recurring_candidates :
    ∀ (rows : List RecRow) (min_occurrences : ℕ) (row : RecurringRow),
      row ∈ recurring_transaction_candidates rows min_occurrences →
      min_occurrences ≤ row.Occurrences ∧
      row.Occurrences = (merchantGroup rows row.Merchant).length ∧
      ∃ med, merchantMedian? rows row.Merchant = some med ∧
        20 ≤ med ∧ med ≤ 40 ∧
        row.SignalConfidence =
          roundQ 100 (max 0 (min (1 - min (|med - 30| / 20) 1) 1)) := by
  intro rows min_occurrences row hmem
  rw [mem_recurring_candidates] at hmem
  obtain ⟨m, _, hrow⟩ := hmem
  unfold recurring_row? at hrow
  dsimp only at hrow
  split at hrow
  · exact absurd hrow (by simp)
  · rename_i hlen
    split at hrow
    · exact absurd hrow (by simp)
    · rename_i hiv
      split at hrow
      · rename_i hwin
        rw [Option.some.injEq] at hrow
        subst hrow
        refine ⟨Nat.le_of_not_lt hlen, rfl, medianZ (diffs (groupDatesSorted rows m)), ?_, hwin.1, hwin.2, rfl⟩
        unfold merchantMedian?
        rw [if_neg hiv]
      · exact absurd hrow (by simp)

/-- C7 (counterexample): with occurrences on days 0, 20 and 41 the median
interval is 20.5 and the confidence formula yields 0.525, but the
detector reports the two-decimal rounding 0.53 — not the formula value. -/
theorem C7_confidence_rounding_counterexample :
    merchantMedian?
        [{ Merchant := "NETFLIX", Date := some 0, DebitCHF := 50 },
         { Merchant := "NETFLIX", Date := some 20, DebitCHF := 50 },
         { Merchant := "NETFLIX", Date := some 41, DebitCHF := 50 }] "NETFLIX" =
      some (41/2) ∧
    (recurring_transaction_candidates
        [{ Merchant := "NETFLIX", Date := some 0, DebitCHF := 50 },
         { Merchant := "NETFLIX", Date := some 20, DebitCHF := 50 },
         { Merchant := "NETFLIX", Date := some 41, DebitCHF := 50 }] 3).map
      (fun r => r.SignalConfidence) = [53/100] ∧
    max 0 (min (1 - min (|(41:ℚ)/2 - 30| / 20) 1) 1) = 21/40 ∧
    (53 : ℚ)/100 ≠ 21/40 := by
  refine ⟨by with_unfolding_all decide, by with_unfolding_all decide, ?_, by norm_num⟩
  have h1 : |(41:ℚ)/2 - 30| = 19/2 := by
    rw [abs_of_nonpos (by norm_num)]
    norm_num
  rw [h1, show ((19:ℚ)/2) / 20 = 19/40 by norm_num,
    min_eq_left (by norm_num : (19:ℚ)/40 ≤ 1),
    show (1 : ℚ) - 19/40 = 21/40 by norm_num,
    min_eq_left (by norm_num : (21:ℚ)/40 ≤ 1)]
  exact max_eq_right (by norm_num)

/-- Witness for the amended C7: four monthly GYM debits on days 0, 30,
60, 91 produce one candidate at confidence 1. -/
theorem C7_recurring_candidates_witness :
    3 ≤ ({ Merchant := "GYM", Occurrences := 4, CadenceDays := 30, AvgSpendingCHF := 50,
           AvgEarningsCHF := 0, LastSeen := 91, ExpectedNext := 121,
           SignalConfidence := 1 } : RecurringRow).Occurrences ∧
    ({ Merchant := "GYM", Occurrences := 4, CadenceDays := 30, AvgSpendingCHF := 50,
       AvgEarningsCHF := 0, LastSeen := 91, ExpectedNext := 121,
       SignalConfidence := 1 } : RecurringRow).Occurrences =
      (merchantGroup
        [{ Merchant := "GYM", Date := some 0, DebitCHF := 50 },
         { Merchant := "GYM", Date := some 30, DebitCHF := 50 },
         { Merchant := "GYM", Date := some 60, DebitCHF := 50 },
         { Merchant := "GYM", Date := some 91, DebitCHF := 50 }] "GYM").length ∧
    ∃ med, merchantMedian?
        [{ Merchant := "GYM", Date := some 0, DebitCHF := 50 },
         { Merchant := "GYM", Date := some 30, DebitCHF := 50 },
         { Merchant := "GYM", Date := some 60, DebitCHF := 50 },
         { Merchant := "GYM", Date := some 91, DebitCHF := 50 }] "GYM" = some med ∧
      20 ≤ med ∧ med ≤ 40 ∧
      ({ Merchant := "GYM", Occurrences := 4, CadenceDays := 30, AvgSpendingCHF := 50,
         AvgEarningsCHF := 0, LastSeen := 91, ExpectedNext := 121,
         SignalConfidence := 1 } : RecurringRow).SignalConfidence =
        roundQ 100 (max 0 (min (1 - min (|med - 30| / 20) 1) 1)) :=
  C7_recurring_candidates
    [{ Merchant := "GYM", Date := some 0, DebitCHF := 50 },
     { Merchant := "GYM", Date := some 30, DebitCHF := 50 },
     { Merchant := "GYM", Date := some 60, DebitCHF := 50 },
     { Merchant := "GYM", Date := some 91, DebitCHF := 50 }] 3 _
    (by with_unfolding_all decide)

/-! ### Lemmas for the rule learner (C3) -/

theorem foldl_best_mem (l : List (String × ℕ)) :
    ∀ b : String × ℕ, l.foldl (fun b e => if b.2 < e.2 then e else b) b ∈ b :: l := by
  induction l with
  | nil => intro b; simp
  | cons hd tl ih =>
    intro b
    rw [List.foldl_cons]
    rcases List.mem_cons.mp (ih (if b.2 < hd.2 then hd else b)) with h | h
    · rw [h]
      by_cases hc : b.2 < hd.2
      · rw [if_pos hc]; simp
      · rw [if_neg hc]; simp
    · simp [h]

theorem foldl_best_max (l : List (String × ℕ)) :
    ∀ (b : String × ℕ) (e : String × ℕ), e ∈ b :: l →
      e.2 ≤ (l.foldl (fun b e => if b.2 < e.2 then e else b) b).2 := by
  induction l with
  | nil =>
    intro b e he
    rcases List.mem_cons.mp he with h | h
    · rw [h]; simp
    · simp at h
  | cons hd tl ih =>
    intro b e he
    rw [List.foldl_cons]
    have hstep : b.2 ≤ (if b.2 < hd.2 then hd else b).2 ∧
        hd.2 ≤ (if b.2 < hd.2 then hd else b).2 := by
      by_cases hc : b.2 < hd.2
      · rw [if_pos hc]; exact ⟨le_of_lt hc, le_refl _⟩
      · rw [if_neg hc]; exact ⟨le_refl _, Nat.le_of_not_lt hc⟩
    rcases List.mem_cons.mp he with h | h
    · calc e.2 = b.2 := by rw [h]
        _ ≤ (if b.2 < hd.2 then hd else b).2 := hstep.1
        _ ≤ _ := ih _ _ (by simp)
    · rcases List.mem_cons.mp h with h2 | h2
      · calc e.2 = hd.2 := by rw [h2]
          _ ≤ (if b.2 < hd.2 then hd else b).2 := hstep.2
          _ ≤ _ := ih _ _ (by simp)
      · exact ih _ e (by simp [h2])

theorem mostCommon1_mem (cc : List (String × ℕ)) (h : cc ≠ []) : mostCommon1 cc ∈ cc := by
  obtain ⟨hd, tl, rfl⟩ := List.exists_cons_of_ne_nil h
  exact foldl_best_mem tl hd

theorem mostCommon1_max (cc : List (String × ℕ)) :
    ∀ e ∈ cc, e.2 ≤ (mostCommon1 cc).2 := by
  cases cc with
  | nil => intro e he; simp at he
  | cons hd tl => exact fun e he => foldl_best_max tl hd e he

theorem counterBump_total (k : String) (cc : List (String × ℕ)) :
    counterTotal (counterBump k cc) = counterTotal cc + 1 := by
  induction cc with
  | nil => rfl
  | cons hd tl ih =>
    unfold counterBump
    by_cases hk : hd.1 = k
    · rw [if_pos hk]
      unfold counterTotal at ih ⊢
      simp [Nat.add_assoc, Nat.add_comm 1]
    · rw [if_neg hk]
      unfold counterTotal at ih ⊢
      simp only [List.map_cons, List.sum_cons, ih]
      omega

theorem statsBump_total_pos (tok cat : String) (stats : List (String × List (String × ℕ)))
    (h : ∀ tc ∈ stats, 1 ≤ counterTotal tc.2) :
    ∀ tc ∈ statsBump tok cat stats, 1 ≤ counterTotal tc.2 := by
  induction stats with
  | nil =>
    intro tc htc
    simp only [statsBump, List.mem_singleton] at htc
    subst htc
    exact le_refl 1
  | cons hd tl ih =>
    intro tc htc
    unfold statsBump at htc
    by_cases hk : hd.1 = tok
    · rw [if_pos hk] at htc
      rcases List.mem_cons.mp htc with h1 | h1
      · rw [h1]
        show 1 ≤ counterTotal (counterBump cat hd.2)
        rw [counterBump_total]
        omega
      · exact h tc (by simp [h1])
    · rw [if_neg hk] at htc
      rcases List.mem_cons.mp htc with h1 | h1
      · exact h tc (by simp [h1])
      · exact ih (fun tc2 htc2 => h tc2 (by simp [htc2])) tc h1

theorem foldl_statsBump_total_pos (cat : String) (toks : List String) :
    ∀ acc : List (String × List (String × ℕ)),
      (∀ tc ∈ acc, 1 ≤ counterTotal tc.2) →
      ∀ tc ∈ toks.foldl (fun acc2 tok => statsBump tok cat acc2) acc, 1 ≤ counterTotal tc.2 := by
  induction toks with
  | nil => intro acc h tc htc; exact h tc htc
  | cons hd tl ih =>
    intro acc h tc htc
    rw [List.foldl_cons] at htc
    exact ih _ (statsBump_total_pos hd cat acc h) tc htc

/-- Every token accumulated by the learner has at least one occurrence. -/
theorem token_stats_total_pos (work : List MapRow) :
    ∀ tc ∈ token_stats work, 1 ≤ counterTotal tc.2 := by
  suffices h : ∀ (rows : List MapRow) (acc : List (String × List (String × ℕ))),
      (∀ tc ∈ acc, 1 ≤ counterTotal tc.2) →
      ∀ tc ∈ rows.foldl (fun acc r =>
          let category := stripS r.Category
          if category = "" then acc
          else (tokenize_mapping_text (transaction_text r)).foldl
            (fun acc2 tok => statsBump tok category acc2) acc) acc,
        1 ≤ counterTotal tc.2 by
    exact h work [] (by simp)
  intro rows
  induction rows with
  | nil => intro acc h tc htc; exact h tc htc
  | cons hd tl ih =>
    intro acc h tc htc
    rw [List.foldl_cons] at htc
    refine ih _ ?_ tc htc
    by_cases hc : stripS hd.Category = ""
    · simpa [hc] using h
    · simpa [hc] using
        foldl_statsBump_total_pos (stripS hd.Category)
          (tokenize_mapping_text (transaction_text hd)) acc h

instance : IsTotal RuleRow ruleGE := by
  constructor
  intro a b
  unfold ruleGE
  rcases lt_trichotomy a.Occurrences b.Occurrences with h | h | h
  · right; left; exact h
  · rcases le_total b.Precision a.Precision with h2 | h2
    · left; right; exact ⟨h, h2⟩
    · right; right; exact ⟨h.symm, h2⟩
  · left; left; exact h

instance : IsTrans RuleRow ruleGE := by
  constructor
  intro a b c hab hbc
  unfold ruleGE at hab hbc ⊢
  rcases hab with h1 | ⟨e1, h1⟩ <;> rcases hbc with h2 | ⟨e2, h2⟩
  · left; exact h2.trans h1
  · left; exact e2 ▸ h1
  · left; exact lt_of_lt_of_le h2 (le_of_eq e1.symm)
  · right; exact ⟨e1.trans e2, h2.trans h1⟩

/-- Membership in the learner's output comes from some accumulated token
counter passing both gates. -/
theorem mem_learn_pattern_rules (labeled : List MapRow) (min_examples : ℕ)
    (min_precision : ℚ) (row : RuleRow) :
    row ∈ learn_pattern_rules labeled min_examples min_precision ↔
      ∃ tc ∈ token_stats (learnWork labeled),
        (let total := counterTotal tc.2
         if total < min_examples then none
         else
           let best := mostCommon1 tc.2
           let precision : ℚ := (best.2 : ℚ) / max total 1
           if precision < min_precision then none
           else some { Token := tc.1, Category := best.1, Occurrences := total,
                       Precision := roundQ 1000 precision }) = some row := by
  unfold learn_pattern_rules
  rw [List.mem_insertionSort, List.mem_filterMap]

/-- C3: every rule the learner emits has support at least `minExamples`;
its occurrence count is the token's accumulated total; its category is a
majority category of the token (a category entry achieving the maximal
count); the majority precision `majorityCount/totalCount` is at least
`minPrecision`; and the output is sorted by occurrences then precision,
descending.  No token violating either gate is emitted. -/
theorem C3_rule_learner :
    ∀ (labeled : List MapRow) (min_examples : ℕ) (min_precision : ℚ),
      (∀ row ∈ learn_pattern_rules labeled min_examples min_precision,
        min_examples ≤ row.Occurrences ∧
        ∃ cc, (row.Token, cc) ∈ token_stats (learnWork labeled) ∧
          row.Occurrences = counterTotal cc ∧
          (row.Category, (mostCommon1 cc).2) ∈ cc ∧
          (∀ e ∈ cc, e.2 ≤ (mostCommon1 cc).2) ∧
          min_precision ≤ ((mostCommon1 cc).2 : ℚ) / (row.Occurrences : ℚ)) ∧
      List.Sorted ruleGE (learn_pattern_rules labeled min_examples min_precision) := by
  intro labeled min_examples min_precision
  constructor
  · intro row hrow
    rw [mem_learn_pattern_rules] at hrow
    obtain ⟨tc, htc, hfn⟩ := hrow
    dsimp only at hfn
    split at hfn
    · exact absurd hfn (by simp)
    · rename_i hlen
      split at hfn
      · exact absurd hfn (by simp)
      · rename_i hprec
        rw [Option.some.injEq] at hfn
        subst hfn
        have htotal : 1 ≤ counterTotal tc.2 := token_stats_total_pos _ tc htc
        have hccne : tc.2 ≠ [] := by
          intro hnil
          rw [hnil] at htotal
          simp [counterTotal] at htotal
        have hmax : ((max (counterTotal tc.2) 1 : ℕ) : ℚ) = (counterTotal tc.2 : ℚ) := by
          rw [Nat.max_eq_left htotal]
        refine ⟨Nat.le_of_not_lt hlen, tc.2, ?_, rfl, ?_, mostCommon1_max tc.2, ?_⟩
        · rw [show (tc.1, tc.2) = tc from rfl]
          exact htc
        · have := mostCommon1_mem tc.2 hccne
          rwa [show ((mostCommon1 tc.2).1, (mostCommon1 tc.2).2) = mostCommon1 tc.2 from rfl]
        · have := le_of_not_lt hprec
          rwa [hmax] at this
  · unfold learn_pattern_rules
    exact List.sorted_insertionSort _ _

/-- Witness for C3: three labeled "MIGROS" rows yield the single rule
`MIGROS → Groceries` with support 3 and precision 1. -/
theorem C3_rule_learner_witness :
    3 ≤ ({ Token := "MIGROS", Category := "Groceries", Occurrences := 3,
           Precision := 1 } : RuleRow).Occurrences ∧
    ∃ cc, (({ Token := "MIGROS", Category := "Groceries", Occurrences := 3,
              Precision := 1 } : RuleRow).Token, cc) ∈
        token_stats (learnWork
          [{ Merchant := "MIGROS", Category := "Groceries" },
           { Merchant := "MIGROS", Category := "Groceries" },
           { Merchant := "MIGROS", Category := "Groceries" }]) ∧
      ({ Token := "MIGROS", Category := "Groceries", Occurrences := 3,
         Precision := 1 } : RuleRow).Occurrences = counterTotal cc ∧
      (({ Token := "MIGROS", Category := "Groceries", Occurrences := 3,
          Precision := 1 } : RuleRow).Category, (mostCommon1 cc).2) ∈ cc ∧
      (∀ e ∈ cc, e.2 ≤ (mostCommon1 cc).2) ∧
      (4/5 : ℚ) ≤ ((mostCommon1 cc).2 : ℚ) /
        (({ Token := "MIGROS", Category := "Groceries", Occurrences := 3,
            Precision := 1 } : RuleRow).Occurrences : ℚ) :=
  (C3_rule_learner
    [{ Merchant := "MIGROS", Category := "Groceries" },
     { Merchant := "MIGROS", Category := "Groceries" },
     { Merchant := "MIGROS", Category := "Groceries" }] 3 (4/5)).1
    { Token := "MIGROS", Category := "Groceries", Occurrences := 3, Precision := 1 }
    (by with_unfolding_all decide)
